import Mathlib

/-!
Verification of the session-scoped completion core of the opencode-sdk
repository (`src/complete.ts`, `src/session.ts`).

The TypeScript functions are shallowly embedded as executable Lean
definitions.  Dynamic JavaScript values (the `properties` bag of a remote
event, message parts, token records) are modelled by the inductive `JVal`;
JavaScript member access, truthiness and the nullish-coalescing operator are
modelled explicitly so that the untyped corners of the source (absent
fields, `null`, falsy strings) are represented faithfully.

The asynchronous orchestration of `complete` is modelled as a pure function
`completeModel` over an explicit environment (`CompleteEnv`) describing one
execution: the outcome of runtime creation, the session id returned by the
remote, the ordered list of events the subscription yields, whether the
iteration ends normally or rejects, at which loop check the internal abort
flag first reads true, and how the prompt promise settles.  Cooperative
single-threaded scheduling means the loop body runs atomically between
awaits, which is what makes this discrete timeline faithful.
-/

namespace OpencodeSdk

/-- A dynamic JavaScript value, as carried by the untyped `properties` bag of
a remote event.  Objects are association lists; arrays are not needed by the
code under verification. -/
inductive JVal where
  | jnull
  | jbool (b : Bool)
  | jnum (n : Int)
  | jstr (s : String)
  | jobj (fields : List (String × JVal))

/-- First binding of a key in an object literal, the lookup JavaScript
performs on plain objects built from distinct keys. -/
def lookupField : List (String × JVal) → String → Option JVal
  | [], _ => none
  | (k, v) :: rest, key => if k == key then some v else lookupField rest key

/-- Member access `v.f` on a value that is neither `null` nor `undefined`:
objects yield the field or `undefined` (`none`); primitives have none of the
fields this code reads, so the access yields `undefined`. -/
def JVal.getField : JVal → String → Option JVal
  | .jobj fields, key => lookupField fields key
  | _, _ => none

/-- JavaScript truthiness of a value (NaN does not arise in this model). -/
def JVal.truthy : JVal → Bool
  | .jnull => false
  | .jbool b => b
  | .jnum n => n != 0
  | .jstr s => s != ""
  | .jobj _ => true

/-- Truthiness of a possibly-undefined value: `undefined` is falsy. -/
def truthyOpt : Option JVal → Bool
  | some v => v.truthy
  | none => false

/-- Member access `x.f` where `x` itself may be `undefined`: accessing a
member of `undefined` or `null` throws a TypeError (`none`); otherwise the
result is the possibly-undefined field value. -/
def jsMember : Option JVal → String → Option (Option JVal)
  | none, _ => none
  | some .jnull, _ => none
  | some v, key => some (v.getField key)

/-- Whether a possibly-undefined value is a given string, the test
`typeof x === "string"` combined with a comparison, or `x === "lit"`. -/
def isStr (v : Option JVal) (s : String) : Bool :=
  match v with
  | some (.jstr t) => t == s
  | _ => false

/-- A remote event: a type tag and an optional untyped properties bag
(`{type: string, properties?: unknown}`). -/
structure RemoteEvent where
  type : String
  properties : Option JVal

/-- `extractSessionId` from `src/complete.ts` lines 256-272: first the
top-level `properties.sessionID` when it is a string, then
`properties.info.sessionID` when `info` is a truthy object holding a string
`sessionID`, else `undefined`.  The guard `if (!props) return undefined`
rejects a missing or falsy properties value. -/
def extractSessionId (event : RemoteEvent) : Option String :=
  match event.properties with
  | none => none
  | some props =>
    if props.truthy then
      match props.getField "sessionID" with
      | some (.jstr s) => some s
      | _ =>
        match props.getField "info" with
        | some (.jobj infoFields) =>
          match lookupField infoFields "sessionID" with
          | some (.jstr s) => some s
          | _ => none
        | _ => none
    else none

/-- The event filter of the completion loop, `src/complete.ts` lines
164-165: the event is skipped when `eventSessionId && eventSessionId !==
sessionId`; it is accepted otherwise.  An extracted empty string is falsy in
JavaScript, so it never causes a skip. -/
def acceptsEvent (sessionId : String) (event : RemoteEvent) : Bool :=
  match extractSessionId event with
  | some s => !(s != "" && s != sessionId)
  | none => true

/-- The filter as the specification words it: accept exactly when the
extracted identifier equals the target or no identifier is present. -/
def specAccepts (sessionId : String) (event : RemoteEvent) : Bool :=
  match extractSessionId event with
  | some s => s == sessionId
  | none => true

/-- A concrete event whose top-level session identifier is the empty
string. -/
def emptySidEvent : RemoteEvent :=
  ⟨"message.part.updated", some (.jobj [("sessionID", .jstr "")])⟩

/-- Token usage (`Usage` in `src/types.ts`); the optional cache counts are
never produced by `complete` and are omitted. -/
structure Usage where
  inputTokens : Int
  outputTokens : Int
  totalTokens : Int
deriving DecidableEq, Repr

/-- One accumulated tool call of a completion result. -/
structure ToolCall where
  id : String
  name : String
  arguments : String
deriving DecidableEq, Repr

/-- The mutable locals of the event loop of `complete`, lines 148-155:
`responseText`, `toolCalls`, `usage` and `stopReason`. -/
structure LoopState where
  responseText : String
  toolCalls : List ToolCall
  usage : Usage
  stopReason : String
deriving DecidableEq, Repr

/-- The initial loop state: empty text, no tool calls, zero usage, stop
reason `"end_turn"`. -/
def initState : LoopState :=
  ⟨"", [], ⟨0, 0, 0⟩, "end_turn"⟩

/-- `(part.text as string) ?? ""` under the TextPart protocol type
(`text : string`): a string field is kept, a nullish or absent field
coalesces to the empty string. -/
def textOf (part : JVal) : String :=
  match part.getField "text" with
  | some (.jstr s) => s
  | _ => ""

/-- `(tokens.input as number) ?? 0` under the declared token record type:
a numeric field is kept, anything nullish or absent yields 0. -/
def numOf : Option JVal → Int
  | some (.jnum n) => n
  | _ => 0

/-- Outcome of running the loop body on one received event: proceed to the
next event, leave the loop by `break`, or throw a TypeError (member access
on a `null` or `undefined` properties bag). -/
inductive StepOutcome where
  | cont (st : LoopState)
  | brk (st : LoopState)
  | tyErr (st : LoopState)
deriving DecidableEq, Repr

/-- The loop state carried by a step outcome. -/
def StepOutcome.state : StepOutcome → LoopState
  | .cont st => st
  | .brk st => st
  | .tyErr st => st

/-- The body of the event loop of `complete`, lines 161-187, for a single
received event (the abort check of line 160 is handled by the loop runner).
A falsy event is skipped; an event of another session is skipped; a
`message.part.updated` event with a text part overwrites `responseText`; a
`message.updated` event for an assistant message carrying truthy tokens
overwrites `usage`; a `session.idle` or `session.status` event with a falsy
status or status type `"idle"` breaks; every other event is ignored. -/
def processEvent (sessionId : String) (st : LoopState) (event : Option RemoteEvent) :
    StepOutcome :=
  match event with
  | none => .cont st
  | some e =>
    if !(acceptsEvent sessionId e) then .cont st
    else if e.type == "message.part.updated" then
      match jsMember e.properties "part" with
      | none => .tyErr st
      | some partOpt =>
        match partOpt with
        | some part =>
          if isStr (part.getField "type") "text" then
            .cont { st with responseText := textOf part }
          else .cont st
        | none => .cont st
    else if e.type == "message.updated" then
      match jsMember e.properties "info" with
      | none => .tyErr st
      | some infoOpt =>
        match infoOpt with
        | some info =>
          if isStr (info.getField "role") "assistant"
              && truthyOpt (info.getField "tokens") then
            let tokens := (info.getField "tokens").getD .jnull
            let inp := numOf (tokens.getField "input")
            let outp := numOf (tokens.getField "output")
            .cont { st with usage := ⟨inp, outp, inp + outp⟩ }
          else .cont st
        | none => .cont st
    else if e.type == "session.idle" || e.type == "session.status" then
      match jsMember e.properties "status" with
      | none => .tyErr st
      | some statusOpt =>
        if !(truthyOpt statusOpt) then .brk st
        else if isStr ((statusOpt.getD .jnull).getField "type") "idle" then .brk st
        else .cont st
    else .cont st

/-- Whether the internal abort flag reads true at loop-check index `i`,
given the first index at which it does (`none` when it never fires). -/
def abortedBy (abortAt : Option Nat) (i : Nat) : Bool :=
  match abortAt with
  | some k => k ≤ i
  | none => false

/-- How the `for await` loop of lines 158-188 ended: the stream was
exhausted after consuming `idx` events, the body broke at event index
`idx` (terminal event or abort check), or the body threw at index `idx`. -/
inductive LoopExit where
  | exhausted (st : LoopState) (idx : Nat)
  | broke (st : LoopState) (idx : Nat)
  | abortBroke (st : LoopState) (idx : Nat)
  | threw (st : LoopState) (idx : Nat)
deriving DecidableEq, Repr

/-- The loop state carried by a loop exit. -/
def LoopExit.state : LoopExit → LoopState
  | .exhausted st _ => st
  | .broke st _ => st
  | .abortBroke st _ => st
  | .threw st _ => st

/-- The event loop: for each arriving event, first the abort check of line
160, then the body.  `i` is the index of the next event. -/
def runLoop (sessionId : String) (abortAt : Option Nat) (st : LoopState) (i : Nat) :
    List (Option RemoteEvent) → LoopExit
  | [] => .exhausted st i
  | e :: rest =>
    if abortedBy abortAt i then .abortBroke st i
    else
      match processEvent sessionId st e with
      | .cont st₁ => runLoop sessionId abortAt st₁ (i + 1) rest
      | .brk st₁ => .broke st₁ i
      | .tyErr st₁ => .threw st₁ i

/-- A JavaScript `Error`: a message and an optional cause.  Errors built by
`new Error("msg")` carry no cause. -/
structure JsError where
  message : String
  cause : Option String
deriving DecidableEq, Repr

/-- The TypeError raised by member access on `null` or `undefined`. -/
def typeErrorVal : JsError :=
  ⟨"TypeError", none⟩

/-- The `catch` of the event loop, lines 189-193: the iteration error is
rethrown unchanged unless the internal abort flag reads true at the moment
the error is observed, in which case it is swallowed. -/
def handleLoopError (aborted : Bool) (err : JsError) : Option JsError :=
  if !aborted then some err else none

/-- Awaiting the prompt promise, lines 196-203: a rejection is swallowed
when the abort flag reads true at the moment it is observed, and otherwise
rethrown as a fresh generic error `new Error("Prompt failed")`. -/
def handlePromptSettled (aborted : Bool) (promptError : Option JsError) :
    Option JsError :=
  match promptError with
  | none => none
  | some _ => if !aborted then some ⟨"Prompt failed", none⟩ else none

/-- Lines 158-193 as a whole: run the loop; on a body throw or an
end-of-iteration rejection apply the catch policy with the abort flag as
read at that point. -/
def loopPhase (sessionId : String) (abortAt : Option Nat) (streamEnd : Option JsError)
    (events : List (Option RemoteEvent)) : Except JsError LoopState :=
  match runLoop sessionId abortAt initState 0 events with
  | .broke st _ => .ok st
  | .abortBroke st _ => .ok st
  | .threw st idx =>
    match handleLoopError (abortedBy abortAt idx) typeErrorVal with
    | some e => .error e
    | none => .ok st
  | .exhausted st idx =>
    match streamEnd with
    | none => .ok st
    | some e =>
      match handleLoopError (abortedBy abortAt idx) e with
      | some e₁ => .error e₁
      | none => .ok st

/-- The completion result (`CompleteResult` in `src/complete.ts`); the raw
response field is never set by `complete` and is omitted. -/
structure CompleteResult where
  text : String
  toolCalls : Option (List ToolCall)
  stopReason : String
  usage : Usage
deriving DecidableEq, Repr

/-- Lines 205-210: the returned result; the tool-call list is surfaced only
when non-empty. -/
def finalize (st : LoopState) : CompleteResult :=
  { text := st.responseText
    toolCalls := if st.toolCalls.length > 0 then some st.toolCalls else none
    stopReason := st.stopReason
    usage := st.usage }

/-- One execution environment for `complete`: everything the call observes
from its collaborators, on the discrete timeline whose steps are the loop
checks.  `abortAt` is the first loop-check index at which the internal
abort flag reads true; `abortedAfterLoop` is the flag as read when the
prompt settlement is observed (after the loop, hence true whenever the loop
already observed the abort). -/
structure CompleteEnv where
  hasAbortSignal : Bool
  preAborted : Bool
  createRuntimeFails : Option JsError
  sessionData : Option String
  events : List (Option RemoteEvent)
  streamEnd : Option JsError
  abortAt : Option Nat
  abortedAfterLoop : Bool
  promptError : Option JsError
  closeThrows : Bool

/-- What one call to `complete` did: its settled result, which remote steps
were attempted, whether the `finally` block of lines 211-217 executed,
whether it invoked the acquired close handle, and whether that invocation
threw (and was swallowed). -/
structure CallOutcome where
  result : Except JsError CompleteResult
  runtimeAttempted : Bool
  sessionAttempted : Bool
  cleanupRan : Bool
  serverCloseCalled : Bool
  closeThrew : Bool

/-- `complete` from `src/complete.ts`, lines 71-218, as a pure function of
one execution environment.  The pre-aborted fast path (lines 75-80) throws
before the `try`/`finally` of lines 94-217, so no cleanup runs there; on
every other path the `finally` executes, invoking the close handle exactly
when runtime creation had assigned one, and swallowing any error it
throws. -/
def completeModel (env : CompleteEnv) : CallOutcome :=
  if env.hasAbortSignal && env.preAborted then
    { result := .error ⟨"Aborted", none⟩
      runtimeAttempted := false
      sessionAttempted := false
      cleanupRan := false
      serverCloseCalled := false
      closeThrew := false }
  else
    match env.createRuntimeFails with
    | some e =>
      { result := .error e
        runtimeAttempted := true
        sessionAttempted := false
        cleanupRan := true
        serverCloseCalled := false
        closeThrew := false }
    | none =>
      match env.sessionData with
      | none =>
        { result := .error ⟨"Failed to create session", none⟩
          runtimeAttempted := true
          sessionAttempted := true
          cleanupRan := true
          serverCloseCalled := true
          closeThrew := env.closeThrows }
      | some sessionId =>
        let res : Except JsError CompleteResult :=
          match loopPhase sessionId env.abortAt env.streamEnd env.events with
          | .error e => .error e
          | .ok st =>
            match handlePromptSettled env.abortedAfterLoop env.promptError with
            | some e => .error e
            | none => .ok (finalize st)
        { result := res
          runtimeAttempted := true
          sessionAttempted := true
          cleanupRan := true
          serverCloseCalled := true
          closeThrew := env.closeThrows }

/-- The nullable handle fields of a `SessionManager` (`src/session.ts`):
`true` means the field holds a value, `false` that it is `null`. -/
structure SessionManager where
  client : Bool
  serverClose : Bool
  sessionId : Bool
deriving DecidableEq, Repr

/-- `SessionManager.close`, `src/session.ts` lines 109-118: invoke the close
handle when one is present (`this.serverClose?.()`), swallow any error it
raises (`closeThrows` says whether it would throw), then null out all three
fields.  The returned Bool reports whether the underlying close handle was
invoked.  The function is total: it returns normally on every input, which
is the no-throw guarantee. -/
def SessionManager.close (s : SessionManager) (_closeThrows : Bool) :
    SessionManager × Bool :=
  (⟨false, false, false⟩, s.serverClose)

/-- Structured message content (`Content` in `src/types.ts`): a text or an
image fragment.  Never flattened by `complete`. -/
inductive Content where
  | text (text : String)
  | image (url : Option String)
deriving DecidableEq, Repr

/-- The content of a message: either a plain string or structured parts
(`content : Content[] | string`). -/
inductive MessageContent where
  | str (s : String)
  | parts (l : List Content)
deriving DecidableEq, Repr

/-- A request message: a role tag and content. -/
structure Message where
  role : String
  content : MessageContent
deriving DecidableEq, Repr

/-- One prompt part sent to the remote; every part `complete` builds has
type `"text"`, so only the text is modelled. -/
structure PromptPart where
  text : String
deriving DecidableEq, Repr

/-- `typeof m.content === "string" ? m.content : ""` (line 126). -/
def contentAsString (m : Message) : String :=
  match m.content with
  | .str s => s
  | .parts _ => ""

/-- Lines 124-127: the synthesized text of the message path, the contents
of the user-role messages joined by newlines, non-string content
contributing the empty string. -/
def joinedUserText (ms : List Message) : String :=
  String.intercalate "\n" ((ms.filter (fun m => m.role == "user")).map contentAsString)

/-- The message branch of lines 121-131: one part holding the synthesized
text when it is non-empty, else nothing (an absent messages field also
yields nothing). -/
def messagesBase : Option (List Message) → List PromptPart
  | some ms =>
    let text := joinedUserText ms
    if text != "" then [⟨text⟩] else []
  | none => []

/-- Lines 133-135: the system-prompt part, appended when `options.systemPrompt`
is truthy, tagged with the `[System]: ` prefix. -/
def sysPart : Option String → List PromptPart
  | some s => if s != "" then [⟨"[System]: " ++ s⟩] else []
  | none => []

/-- `parts` as built by lines 117-135: the literal prompt when truthy
(present and non-empty), else the message path, with the system part
appended last. -/
def buildParts (prompt : Option String) (messages : Option (List Message))
    (systemPrompt : Option String) : List PromptPart :=
  (match prompt with
   | some p => if p != "" then [⟨p⟩] else messagesBase messages
   | none => messagesBase messages)
  ++ sysPart systemPrompt

/-- A stream event yielded by `streamComplete` (`StreamEvent` in
`src/complete.ts`). -/
inductive StreamEvent where
  | text (text : String)
  | toolCallStart (id name : String)
  | toolCallDelta (id delta : String)
  | toolCallEnd (id name arguments : String)
  | done (result : CompleteResult)
deriving DecidableEq, Repr

/-- The start/delta/end triple emitted for one accumulated tool call
(lines 234-236). -/
def toolCallTriple (tc : ToolCall) : List StreamEvent :=
  [.toolCallStart tc.id tc.name,
   .toolCallDelta tc.id tc.arguments,
   .toolCallEnd tc.id tc.name tc.arguments]

/-- `streamComplete`, lines 224-240, as the finite list of events the
generator yields for the result of the underlying `complete` call: a text
event when `result.text` is truthy (non-empty), then the triples of
`result.toolCalls ?? []` in order, then the terminal done event. -/
def streamComplete (result : CompleteResult) : List StreamEvent :=
  (if result.text != "" then [.text result.text] else [])
  ++ ((result.toolCalls.getD []).map toolCallTriple).flatten
  ++ [.done result]

/-- The stream shape exactly as the specification describes it: one text
event if and only if the text is non-empty, then a start/delta/end triple
per tool call in list order, then exactly one terminal done event. -/
def specStreamEvents (result : CompleteResult) : List StreamEvent :=
  (if result.text = "" then [] else [.text result.text])
  ++ (result.toolCalls.getD []).foldr
      (fun tc rest =>
        .toolCallStart tc.id tc.name ::
        .toolCallDelta tc.id tc.arguments ::
        .toolCallEnd tc.id tc.name tc.arguments :: rest) []
  ++ [.done result]

/-- Recognizer for the terminal done event. -/
def isDone : StreamEvent → Bool
  | .done _ => true
  | _ => false

/-- Recognizer for the three tool-call event kinds. -/
def isToolEvent : StreamEvent → Bool
  | .toolCallStart _ _ => true
  | .toolCallDelta _ _ => true
  | .toolCallEnd _ _ _ => true
  | _ => false

/-- The text carried by a received event when it is an accepted
`message.part.updated` event whose part has type text, and `undefined`
otherwise. -/
def carriedText (sessionId : String) (event : Option RemoteEvent) : Option String :=
  match event with
  | none => none
  | some e =>
    if acceptsEvent sessionId e && e.type == "message.part.updated" then
      match jsMember e.properties "part" with
      | some (some part) =>
        if isStr (part.getField "type") "text" then some (textOf part) else none
      | _ => none
    else none

/-- The text carried by the last accepted text-part event of a stream. -/
def lastTextUpdate (sessionId : String) (events : List (Option RemoteEvent)) :
    Option String :=
  (events.filterMap (carriedText sessionId)).getLast?

/-- An accepted terminal event: type `session.idle` or `session.status`,
with a readable properties bag whose status is falsy or tagged idle. -/
def terminalEvent (sessionId : String) (e : RemoteEvent) : Bool :=
  acceptsEvent sessionId e
  && (e.type == "session.idle" || e.type == "session.status")
  && (match jsMember e.properties "status" with
      | some statusOpt =>
        !(truthyOpt statusOpt)
        || isStr ((statusOpt.getD .jnull).getField "type") "idle"
      | none => false)

/-- Whether the loop body neither breaks nor throws on this event; the
branch taken by `processEvent` depends only on the event, not on the
state. -/
def stepCont (sessionId : String) (event : Option RemoteEvent) : Bool :=
  match processEvent sessionId initState event with
  | .cont _ => true
  | _ => false

/-- A well-formed `message.part.updated` event for a session, carrying the
full current text of a text part. -/
def textEvt (sid s : String) : RemoteEvent :=
  ⟨"message.part.updated",
   some (.jobj [("sessionID", .jstr sid),
                ("part", .jobj [("type", .jstr "text"), ("text", .jstr s)])])⟩

/-- A well-formed `session.idle` event for a session (no status field, so
the status read is falsy and the loop breaks). -/
def idleEvt (sid : String) : RemoteEvent :=
  ⟨"session.idle", some (.jobj [("sessionID", .jstr sid)])⟩

/-- An environment whose external abort signal is already aborted when
`complete` is entered. -/
def envPA : CompleteEnv :=
  { hasAbortSignal := true
    preAborted := true
    createRuntimeFails := none
    sessionData := some "s1"
    events := [some (textEvt "s1" "hello"), some (idleEvt "s1")]
    streamEnd := none
    abortAt := none
    abortedAfterLoop := false
    promptError := none
    closeThrows := false }

/-- A plain successful environment: runtime and session created, one text
event then an idle event, everything settles normally. -/
def demoEnv : CompleteEnv :=
  { hasAbortSignal := false
    preAborted := false
    createRuntimeFails := none
    sessionData := some "s1"
    events := [some (textEvt "s1" "hello"), some (idleEvt "s1")]
    streamEnd := none
    abortAt := none
    abortedAfterLoop := false
    promptError := none
    closeThrows := false }

/-- An environment whose external signal aborts while the loop is running:
the abort flag is first read true at the second loop check, after the text
body `"a"` arrived and before the body `"ab"` is processed. -/
def c7env : CompleteEnv :=
  { hasAbortSignal := true
    preAborted := false
    createRuntimeFails := none
    sessionData := some "s1"
    events := [some (textEvt "s1" "a"), some (textEvt "s1" "ab")]
    streamEnd := some ⟨"stream aborted", none⟩
    abortAt := some 1
    abortedAfterLoop := true
    promptError := some ⟨"prompt rejected", none⟩
    closeThrows := false }

/-- C1 counterexample: an event whose extracted session identifier is the
empty string is accepted although the identifier is present and differs
from the target `"s1"`, because the guard
`eventSessionId && eventSessionId !== sessionId` treats the falsy empty
string as if no identifier were present.  This refutes the claimed
equivalence in the only-if direction. -/
theorem c1_filter_counterexample :
    acceptsEvent "s1" emptySidEvent = true
    ∧ extractSessionId emptySidEvent = some ""
    ∧ specAccepts "s1" emptySidEvent = false := by
  refine ⟨rfl, rfl, rfl⟩

/-- C1 (amended): the filter accepts an event exactly when the extracted
identifier is absent, is the empty string, or equals the target; extraction
prefers the top-level `properties.sessionID` string, falls back to
`properties.info.sessionID`, and yields nothing otherwise, in which case the
event is always accepted.  The filter and the extractor are total functions,
hence side-effect free and non-throwing. -/
theorem c1_filter_amended :
    (∀ (sid : String) (e : RemoteEvent),
      acceptsEvent sid e = true ↔
        (extractSessionId e = none ∨ extractSessionId e = some ""
          ∨ extractSessionId e = some sid))
    ∧ (∀ (t : String) (fields : List (String × JVal)) (s : String),
        lookupField fields "sessionID" = some (.jstr s) →
        extractSessionId ⟨t, some (.jobj fields)⟩ = some s)
    ∧ (∀ (t : String) (fields infoFields : List (String × JVal)) (s : String),
        (∀ u : String, lookupField fields "sessionID" ≠ some (.jstr u)) →
        lookupField fields "info" = some (.jobj infoFields) →
        lookupField infoFields "sessionID" = some (.jstr s) →
        extractSessionId ⟨t, some (.jobj fields)⟩ = some s)
    ∧ (∀ (sid : String) (e : RemoteEvent),
        extractSessionId e = none → acceptsEvent sid e = true) := by
  refine ⟨?_, ?_, ?_, ?_⟩
  · intro sid e
    unfold acceptsEvent
    cases h : extractSessionId e with
    | none => simp
    | some s =>
      by_cases h1 : s = ""
      · subst h1; simp
      · by_cases h2 : s = sid
        · subst h2; simp [h1]
        · simp [h1, h2]
  · intro t fields s h
    simp [extractSessionId, JVal.truthy, JVal.getField, h]
  · intro t fields infoFields s hno hinfo hsid
    unfold extractSessionId
    simp only [JVal.truthy, JVal.getField]
    cases hx : lookupField fields "sessionID" with
    | none => simp [hx, hinfo, hsid]
    | some v =>
      cases v with
      | jstr u => exact absurd hx (hno u)
      | jnull => simp [hx, hinfo, hsid]
      | jbool b => simp [hx, hinfo, hsid]
      | jnum n => simp [hx, hinfo, hsid]
      | jobj f => simp [hx, hinfo, hsid]
  · intro sid e h
    unfold acceptsEvent
    rw [h]

/-- C1 witness: the amended theorem applied to a concrete event whose
top-level identifier is the string `"s9"`. -/
theorem c1_filter_amended_witness :
    extractSessionId ⟨"x", some (.jobj [("sessionID", .jstr "s9")])⟩ = some "s9" :=
  c1_filter_amended.2.1 "x" [("sessionID", .jstr "s9")] "s9" rfl

/-- When the loop body proceeds to the next event, the new `responseText`
is the text carried by the event when it is an accepted text-part update,
and the old one otherwise. -/
theorem processEvent_cont_responseText (sessionId : String) (st st' : LoopState)
    (ev : Option RemoteEvent) (h : processEvent sessionId st ev = .cont st') :
    st'.responseText = (carriedText sessionId ev).getD st.responseText := by
  cases ev with
  | none =>
    simp only [processEvent, StepOutcome.cont.injEq] at h
    subst h
    rfl
  | some e =>
    unfold processEvent at h
    unfold carriedText
    by_cases hacc : acceptsEvent sessionId e = true
    · simp only [hacc, Bool.not_true, Bool.false_eq_true, if_false, Bool.true_and] at h ⊢
      by_cases h1 : e.type = "message.part.updated"
      · simp only [h1, beq_self_eq_true, if_true] at h ⊢
        cases hm : jsMember e.properties "part" with
        | none => rw [hm] at h; cases h
        | some partOpt =>
          rw [hm] at h
          cases partOpt with
          | none => cases h; rfl
          | some part =>
            by_cases ht : isStr (part.getField "type") "text" = true
            · simp only [ht, if_true] at h ⊢
              cases h
              rfl
            · simp only [eq_false_of_ne_true ht, Bool.false_eq_true, if_false] at h ⊢
              cases h
              rfl
      · have h1' : (e.type == "message.part.updated") = false := by
          simpa using h1
        simp only [h1', Bool.false_eq_true, if_false] at h ⊢
        by_cases h2 : e.type = "message.updated"
        · simp only [h2, beq_self_eq_true, if_true] at h
          cases hm : jsMember e.properties "info" with
          | none => rw [hm] at h; cases h
          | some infoOpt =>
            rw [hm] at h
            cases infoOpt with
            | none => cases h; rfl
            | some info =>
              by_cases hr : (isStr (info.getField "role") "assistant"
                  && truthyOpt (info.getField "tokens")) = true
              · simp only [hr, if_true] at h; cases h; rfl
              · simp only [eq_false_of_ne_true hr, Bool.false_eq_true, if_false] at h
                cases h; rfl
        · have h2' : (e.type == "message.updated") = false := by simpa using h2
          simp only [h2', Bool.false_eq_true, if_false] at h
          by_cases h3 : (e.type == "session.idle" || e.type == "session.status") = true
          · simp only [h3, if_true] at h
            cases hm : jsMember e.properties "status" with
            | none => rw [hm] at h; cases h
            | some statusOpt =>
              rw [hm] at h
              by_cases hs : truthyOpt statusOpt = true
              · simp only [hs, Bool.not_true, Bool.false_eq_true, if_false] at h
                by_cases hi : isStr ((statusOpt.getD .jnull).getField "type") "idle" = true
                · rw [hi] at h; simp at h
                · simp only [eq_false_of_ne_true hi, Bool.false_eq_true, if_false] at h
                  cases h; rfl
              · simp only [eq_false_of_ne_true hs, Bool.not_false, if_true] at h
                cases h
          · simp only [eq_false_of_ne_true h3, Bool.false_eq_true, if_false] at h
            cases h; rfl
    · have hacc' : acceptsEvent sessionId e = false := eq_false_of_ne_true hacc
      simp only [hacc', Bool.not_false, if_true, Bool.false_and, Bool.false_eq_true,
        if_false] at h ⊢
      cases h
      rfl

/-- The default of the last element of a cons list shifts the head into the
default position. -/
theorem getLast?_getD_cons {α : Type} (t : α) (l : List α) (d : α) :
    ((t :: l).getLast?).getD d = (l.getLast?).getD t := by
  induction l generalizing t d with
  | nil => rfl
  | cons u l' ih =>
    rw [List.getLast?_cons_cons]
    calc ((u :: l').getLast?).getD d
        = (l'.getLast?).getD u := ih u d
      _ = ((u :: l').getLast?).getD t := (ih u t).symm

/-- A run of the loop that consumes its whole stream leaves in
`responseText` the text of the last accepted text-part update, or the
initial text when there is none. -/
theorem runLoop_exhausted_responseText (sessionId : String) :
    ∀ (evs : List (Option RemoteEvent)) (st st' : LoopState) (i n : Nat),
      runLoop sessionId none st i evs = .exhausted st' n →
      st'.responseText =
        ((evs.filterMap (carriedText sessionId)).getLast?).getD st.responseText := by
  intro evs
  induction evs with
  | nil =>
    intro st st' i n h
    simp only [runLoop, LoopExit.exhausted.injEq] at h
    simp [h.1]
  | cons e rest ih =>
    intro st st' i n h
    simp only [runLoop, abortedBy, Bool.false_eq_true, if_false] at h
    cases hp : processEvent sessionId st e with
    | cont st₁ =>
      rw [hp] at h
      have hrec := ih st₁ st' (i + 1) n h
      have hstep := processEvent_cont_responseText sessionId st st₁ e hp
      rw [List.filterMap_cons]
      cases hc : carriedText sessionId e with
      | none =>
        rw [hc] at hstep
        simp only [Option.getD_none] at hstep
        rw [hrec, hstep]
      | some t =>
        rw [hc] at hstep
        simp only [Option.getD_some] at hstep
        rw [hrec, hstep, getLast?_getD_cons]
    | brk st₁ => rw [hp] at h; cases h
    | tyErr st₁ => rw [hp] at h; cases h

/-- C2: over a full (non-aborted, fully consumed) run of the event loop the
accumulated text is overwritten, not concatenated: the final text is the
text carried by the last accepted text-part `message.part.updated` event,
and the empty string when no such event arrived; in particular the bodies
`"a"`, `"ab"`, `"abc"` leave `"abc"`. -/
theorem c2_last_write_wins :
    (∀ (sessionId : String) (events : List (Option RemoteEvent))
        (st' : LoopState) (n : Nat),
      runLoop sessionId none initState 0 events = .exhausted st' n →
      st'.responseText = (lastTextUpdate sessionId events).getD "")
    ∧ runLoop "s1" none initState 0
        [some (textEvt "s1" "a"), some (textEvt "s1" "ab"), some (textEvt "s1" "abc")]
        = .exhausted ⟨"abc", [], ⟨0, 0, 0⟩, "end_turn"⟩ 3 := by
  constructor
  · intro sessionId events st' n h
    exact runLoop_exhausted_responseText sessionId events initState st' 0 n h
  · rfl

/-- C2 witness: the characterization applied to the concrete bodies `"a"`,
`"ab"`, `"abc"`, whose last accepted text update is `"abc"`. -/
theorem c2_last_write_wins_witness :
    (⟨"abc", [], ⟨0, 0, 0⟩, "end_turn"⟩ : LoopState).responseText
      = (lastTextUpdate "s1"
          [some (textEvt "s1" "a"), some (textEvt "s1" "ab"),
           some (textEvt "s1" "abc")]).getD "" :=
  c2_last_write_wins.1 "s1" _ _ 3 (by decide)

/-- A two-armed conditional whose arms both proceed always proceeds. -/
theorem exists_cont_ite (c : Prop) [Decidable c] (a b : LoopState) :
    ∃ st₁, (if c then StepOutcome.cont a else StepOutcome.cont b)
      = StepOutcome.cont st₁ := by
  by_cases h : c
  · rw [if_pos h]; exact ⟨a, rfl⟩
  · rw [if_neg h]; exact ⟨b, rfl⟩

/-- The branch the loop body takes depends only on the event: if the body
proceeds from the initial state on an event, it proceeds from every
state. -/
theorem stepCont_cont (sessionId : String) (ev : Option RemoteEvent)
    (h : stepCont sessionId ev = true) (st : LoopState) :
    ∃ st₁, processEvent sessionId st ev = .cont st₁ := by
  unfold stepCont at h
  cases hp : processEvent sessionId initState ev with
  | brk y => rw [hp] at h; cases h
  | tyErr y => rw [hp] at h; cases h
  | cont y =>
    clear h
    cases ev with
    | none => exact ⟨st, rfl⟩
    | some e =>
      unfold processEvent at hp ⊢
      by_cases hacc : acceptsEvent sessionId e = true
      · simp only [hacc, Bool.not_true, Bool.false_eq_true, if_false] at hp ⊢
        by_cases h1 : e.type = "message.part.updated"
        · simp only [h1, beq_self_eq_true, if_true] at hp ⊢
          cases hm : jsMember e.properties "part" with
          | none => rw [hm] at hp; cases hp
          | some partOpt =>
            rw [hm] at hp
            cases partOpt with
            | none => exact ⟨st, rfl⟩
            | some part => exact exists_cont_ite _ _ _
        · have h1' : (e.type == "message.part.updated") = false := by simpa using h1
          simp only [h1', Bool.false_eq_true, if_false] at hp ⊢
          by_cases h2 : e.type = "message.updated"
          · simp only [h2, beq_self_eq_true, if_true] at hp ⊢
            cases hm : jsMember e.properties "info" with
            | none => rw [hm] at hp; cases hp
            | some infoOpt =>
              rw [hm] at hp
              cases infoOpt with
              | none => exact ⟨st, rfl⟩
              | some info => exact exists_cont_ite _ _ _
          · have h2' : (e.type == "message.updated") = false := by simpa using h2
            simp only [h2', Bool.false_eq_true, if_false] at hp ⊢
            by_cases h3 : (e.type == "session.idle" || e.type == "session.status") = true
            · simp only [h3, if_true] at hp ⊢
              cases hm : jsMember e.properties "status" with
              | none => rw [hm] at hp; cases hp
              | some statusOpt =>
                rw [hm] at hp
                have hp₂ :
                    (if (!truthyOpt statusOpt) = true then StepOutcome.brk initState
                     else if isStr ((statusOpt.getD JVal.jnull).getField "type") "idle"
                            = true
                          then StepOutcome.brk initState
                          else StepOutcome.cont initState) = StepOutcome.cont y := hp
                show ∃ st₁,
                  (if (!truthyOpt statusOpt) = true then StepOutcome.brk st
                   else if isStr ((statusOpt.getD JVal.jnull).getField "type") "idle"
                          = true
                        then StepOutcome.brk st
                        else StepOutcome.cont st) = StepOutcome.cont st₁
                by_cases hs : (!truthyOpt statusOpt) = true
                · rw [if_pos hs] at hp₂; cases hp₂
                · rw [if_neg hs] at hp₂ ⊢
                  by_cases hi :
                      isStr ((statusOpt.getD JVal.jnull).getField "type") "idle" = true
                  · rw [if_pos hi] at hp₂; cases hp₂
                  · rw [if_neg hi]; exact ⟨st, rfl⟩
            · simp only [eq_false_of_ne_true h3, Bool.false_eq_true, if_false]
              exact ⟨st, rfl⟩
      · have hacc' := eq_false_of_ne_true hacc
        simp only [hacc', Bool.not_false, if_true]
        exact ⟨st, rfl⟩

/-- An accepted terminal event makes the loop body break with the state
unchanged. -/
theorem processEvent_terminal_brk (sessionId : String) (st : LoopState)
    (e : RemoteEvent) (h : terminalEvent sessionId e = true) :
    processEvent sessionId st (some e) = .brk st := by
  unfold terminalEvent at h
  simp only [Bool.and_eq_true] at h
  obtain ⟨⟨hacc, htype⟩, hstat⟩ := h
  have htype' : e.type = "session.idle" ∨ e.type = "session.status" := by
    simpa using htype
  have h1' : (e.type == "message.part.updated") = false := by
    rcases htype' with h | h <;> rw [h] <;> decide
  have h2' : (e.type == "message.updated") = false := by
    rcases htype' with h | h <;> rw [h] <;> decide
  unfold processEvent
  simp only [hacc, Bool.not_true, Bool.false_eq_true, if_false, h1', h2', htype, if_true]
  cases hm : jsMember e.properties "status" with
  | none => rw [hm] at hstat; cases hstat
  | some statusOpt =>
    rw [hm] at hstat
    by_cases hs : truthyOpt statusOpt = true
    · have hi : isStr ((statusOpt.getD .jnull).getField "type") "idle" = true := by
        simpa [hs] using hstat
      simp [hs, hi]
    · simp [eq_false_of_ne_true hs]

/-- An accepted event of an unrecognized type is ignored: the body proceeds
with the state unchanged. -/
theorem processEvent_other_cont (sessionId : String) (st : LoopState)
    (e : RemoteEvent) (hacc : acceptsEvent sessionId e = true)
    (h1 : e.type ≠ "message.part.updated") (h2 : e.type ≠ "message.updated")
    (h3 : e.type ≠ "session.idle") (h4 : e.type ≠ "session.status") :
    processEvent sessionId st (some e) = .cont st := by
  have h1' : (e.type == "message.part.updated") = false := by simpa using h1
  have h2' : (e.type == "message.updated") = false := by simpa using h2
  have h3' : (e.type == "session.idle") = false := by simpa using h3
  have h4' : (e.type == "session.status") = false := by simpa using h4
  unfold processEvent
  simp [hacc, h1', h2', h3', h4']

/-- Once the loop has broken, appending further events to the stream
changes neither the exit state nor the break position: later events are
never consumed. -/
theorem runLoop_broke_append (sessionId : String) (abortAt : Option Nat) :
    ∀ (evs : List (Option RemoteEvent)) (st st' : LoopState) (i j : Nat)
      (extra : List (Option RemoteEvent)),
      runLoop sessionId abortAt st i evs = .broke st' j →
      runLoop sessionId abortAt st i (evs ++ extra) = .broke st' j := by
  intro evs
  induction evs with
  | nil =>
    intro st st' i j extra h
    simp only [runLoop] at h
    cases h
  | cons e rest ih =>
    intro st st' i j extra h
    simp only [runLoop, List.cons_append] at h ⊢
    by_cases ha : abortedBy abortAt i = true
    · rw [ha] at h
      simp only [if_true] at h
      cases h
    · simp only [eq_false_of_ne_true ha, Bool.false_eq_true, if_false] at h ⊢
      cases hp : processEvent sessionId st e with
      | cont st₁ => rw [hp] at h; exact ih st₁ st' (i + 1) j extra h
      | brk st₁ => rw [hp] at h; exact h
      | tyErr st₁ => rw [hp] at h; cases h

/-- In a non-aborted run, the first accepted terminal event breaks the
loop: the exit state is exactly the state accumulated over the events
before it, and the break position is its index, so no later event
contributes. -/
theorem runLoop_first_terminal (sessionId : String) :
    ∀ (evs1 : List (Option RemoteEvent)) (st : LoopState) (i : Nat)
      (t : RemoteEvent) (evs2 : List (Option RemoteEvent)),
      (∀ x ∈ evs1, stepCont sessionId x = true) →
      terminalEvent sessionId t = true →
      ∃ st', runLoop sessionId none st i (evs1 ++ some t :: evs2)
                = .broke st' (i + evs1.length)
        ∧ runLoop sessionId none st i evs1 = .exhausted st' (i + evs1.length) := by
  intro evs1
  induction evs1 with
  | nil =>
    intro st i t evs2 hc ht
    refine ⟨st, ?_, ?_⟩
    · simp only [List.nil_append, runLoop, abortedBy, Bool.false_eq_true, if_false]
      rw [processEvent_terminal_brk sessionId st t ht]
      simp
    · simp [runLoop]
  | cons x xs ih =>
    intro st i t evs2 hc ht
    have hx : stepCont sessionId x = true := hc x (List.mem_cons_self x xs)
    obtain ⟨st₁, hp⟩ := stepCont_cont sessionId x hx st
    have hc' : ∀ y ∈ xs, stepCont sessionId y = true :=
      fun y hy => hc y (List.mem_cons_of_mem x hy)
    obtain ⟨st', h1, h2⟩ := ih st₁ (i + 1) t evs2 hc' ht
    have hlen : i + 1 + xs.length = i + (x :: xs).length := by
      simp only [List.length_cons]
      omega
    rw [hlen] at h1 h2
    refine ⟨st', ?_, ?_⟩
    · simp only [List.cons_append, runLoop, abortedBy, Bool.false_eq_true, if_false]
      rw [hp]
      exact h1
    · simp only [runLoop, abortedBy, Bool.false_eq_true, if_false]
      rw [hp]
      exact h2

/-- C3: the loop leaves by `break`, not by an error, at the first accepted
`session.idle` or `session.status` event whose status is falsy or tagged
idle; events after that terminal event contribute nothing to the exit
state or position (whether they follow a break in the consumed stream or
sit after the terminal event); and accepted events of unrecognized types
are ignored. -/
theorem c3_terminal_detection :
    (∀ (sessionId : String) (st : LoopState) (e : RemoteEvent),
      terminalEvent sessionId e = true → processEvent sessionId st (some e) = .brk st)
    ∧ (∀ (sessionId : String) (abortAt : Option Nat) (evs : List (Option RemoteEvent))
        (st st' : LoopState) (i j : Nat) (extra : List (Option RemoteEvent)),
        runLoop sessionId abortAt st i evs = .broke st' j →
        runLoop sessionId abortAt st i (evs ++ extra) = .broke st' j)
    ∧ (∀ (sessionId : String) (evs1 : List (Option RemoteEvent)) (st : LoopState)
        (i : Nat) (t : RemoteEvent) (evs2 : List (Option RemoteEvent)),
        (∀ x ∈ evs1, stepCont sessionId x = true) →
        terminalEvent sessionId t = true →
        ∃ st', runLoop sessionId none st i (evs1 ++ some t :: evs2)
                  = .broke st' (i + evs1.length)
          ∧ runLoop sessionId none st i evs1 = .exhausted st' (i + evs1.length))
    ∧ (∀ (sessionId : String) (st : LoopState) (e : RemoteEvent),
        acceptsEvent sessionId e = true →
        e.type ≠ "message.part.updated" → e.type ≠ "message.updated" →
        e.type ≠ "session.idle" → e.type ≠ "session.status" →
        processEvent sessionId st (some e) = .cont st) :=
  ⟨processEvent_terminal_brk,
   runLoop_broke_append,
   runLoop_first_terminal,
   processEvent_other_cont⟩

/-- C3 witness: a concrete idle event for the target session breaks the
loop body. -/
theorem c3_terminal_detection_witness :
    processEvent "s1" initState (some (idleEvt "s1")) = .brk initState :=
  c3_terminal_detection.1 "s1" initState (idleEvt "s1") (by decide)

/-- The settled result of a call never depends on whether the close handle
throws during cleanup: the `finally` of lines 211-217 swallows the error. -/
theorem completeModel_result_closeThrows (env : CompleteEnv) (b₁ b₂ : Bool) :
    (completeModel { env with closeThrows := b₁ }).result
      = (completeModel { env with closeThrows := b₂ }).result := by
  rcases env with ⟨has, pre, crf, sd, evs, se, aa, aal, pe, ct⟩
  unfold completeModel
  by_cases h : (has && pre) = true
  · rw [if_pos h, if_pos h]
  · rw [if_neg h, if_neg h]
    cases crf with
    | some e => rfl
    | none =>
      cases sd with
      | none => rfl
      | some sid => rfl

/-- C4 counterexample: the pre-aborted fast path of lines 75-80 throws the
Aborted error before the `try`/`finally` of lines 94-217 is entered, so on
that exit path of `complete` the release step is not attempted at all,
refuting the claim for the cancellation exit path it quantifies over. -/
theorem c4_cleanup_counterexample :
    (completeModel envPA).cleanupRan = false
    ∧ (completeModel envPA).result = .error ⟨"Aborted", none⟩ := by
  exact ⟨rfl, rfl⟩

/-- C4 (amended): on every exit path that enters the acquisition phase
(every call except the pre-aborted fast path, which throws before anything
is acquired), the cleanup step runs at the end of the call and invokes the
acquired close handle exactly when runtime creation succeeded; an error
raised by the release step is swallowed and never replaces the primary
result or error; and `SessionManager.close` called twice returns normally
both times, nulls every handle, and never invokes the underlying close a
second time. -/
theorem c4_cleanup_amended :
    (∀ env : CompleteEnv, ¬(env.hasAbortSignal = true ∧ env.preAborted = true) →
      (completeModel env).cleanupRan = true
      ∧ (completeModel env).serverCloseCalled = env.createRuntimeFails.isNone)
    ∧ (∀ (env : CompleteEnv) (b₁ b₂ : Bool),
        (completeModel { env with closeThrows := b₁ }).result
          = (completeModel { env with closeThrows := b₂ }).result)
    ∧ (∀ (s : SessionManager) (b : Bool),
        (SessionManager.close s b).1 = ⟨false, false, false⟩)
    ∧ (∀ (s : SessionManager) (b₁ b₂ : Bool),
        (SessionManager.close (SessionManager.close s b₁).1 b₂).2 = false) := by
  refine ⟨?_, completeModel_result_closeThrows, fun s b => rfl, fun s b₁ b₂ => rfl⟩
  intro env hno
  have hcond : (env.hasAbortSignal && env.preAborted) = false := by
    cases h1 : env.hasAbortSignal with
    | false => simp
    | true =>
      cases h2 : env.preAborted with
      | false => simp
      | true => exact absurd ⟨h1, h2⟩ hno
  unfold completeModel
  rw [hcond]
  simp only [Bool.false_eq_true, if_false]
  cases env.createRuntimeFails with
  | some e => exact ⟨rfl, rfl⟩
  | none =>
    cases env.sessionData with
    | none => exact ⟨rfl, rfl⟩
    | some sid => exact ⟨rfl, rfl⟩

/-- C4 witness: the amended theorem applied to a concrete call that is not
pre-aborted. -/
theorem c4_cleanup_amended_witness :
    (completeModel demoEnv).cleanupRan = true :=
  (c4_cleanup_amended.1 demoEnv (by decide)).1

/-- C5: a call whose external signal is already aborted fails immediately
with the Aborted error, attempting neither runtime creation nor session
creation. -/
theorem c5_pre_aborted_fast_path :
    ∀ env : CompleteEnv,
      env.hasAbortSignal = true → env.preAborted = true →
      (completeModel env).result = .error ⟨"Aborted", none⟩
      ∧ (completeModel env).runtimeAttempted = false
      ∧ (completeModel env).sessionAttempted = false := by
  intro env h1 h2
  unfold completeModel
  rw [h1, h2]
  exact ⟨rfl, rfl, rfl⟩

/-- C5 witness: the fast path on a concrete pre-aborted environment. -/
theorem c5_pre_aborted_fast_path_witness :
    (completeModel envPA).runtimeAttempted = false :=
  (c5_pre_aborted_fast_path envPA rfl rfl).2.1

/-- C6: the two catch sites suppress an error exactly when the internal
abort flag reads true at the moment the error is observed; a non-suppressed
iteration error is rethrown unchanged (also through the whole loop phase),
while a non-suppressed prompt rejection is replaced by the constant generic
error `"Prompt failed"`, the original cause not being preserved. -/
theorem c6_error_suppression :
    (∀ (aborted : Bool) (e : JsError),
      handleLoopError aborted e = none ↔ aborted = true)
    ∧ (∀ e : JsError, handleLoopError false e = some e)
    ∧ (∀ (aborted : Bool) (e : JsError),
        handlePromptSettled aborted (some e) = none ↔ aborted = true)
    ∧ (∀ e : JsError, handlePromptSettled false (some e) = some ⟨"Prompt failed", none⟩)
    ∧ (∀ (sessionId : String) (abortAt : Option Nat)
        (evs : List (Option RemoteEvent)) (st : LoopState) (idx : Nat) (e : JsError),
        runLoop sessionId abortAt initState 0 evs = .exhausted st idx →
        abortedBy abortAt idx = false →
        loopPhase sessionId abortAt (some e) evs = .error e)
    ∧ (∀ (sessionId : String) (abortAt : Option Nat)
        (evs : List (Option RemoteEvent)) (st : LoopState) (idx : Nat) (e : JsError),
        runLoop sessionId abortAt initState 0 evs = .exhausted st idx →
        abortedBy abortAt idx = true →
        loopPhase sessionId abortAt (some e) evs = .ok st) := by
  refine ⟨?_, fun e => rfl, ?_, fun e => rfl, ?_, ?_⟩
  · intro aborted e
    cases aborted <;> simp [handleLoopError]
  · intro aborted e
    cases aborted <;> simp [handlePromptSettled]
  · intro sessionId abortAt evs st idx e hrun hflag
    unfold loopPhase
    rw [hrun]
    show (match handleLoopError (abortedBy abortAt idx) e with
          | some e₁ => Except.error e₁
          | none => Except.ok st) = Except.error e
    rw [hflag]
    rfl
  · intro sessionId abortAt evs st idx e hrun hflag
    unfold loopPhase
    rw [hrun]
    show (match handleLoopError (abortedBy abortAt idx) e with
          | some e₁ => Except.error e₁
          | none => Except.ok st) = Except.ok st
    rw [hflag]
    rfl

/-- C6 witness: a stream-end rejection observed with the abort flag down is
rethrown unchanged through the loop phase. -/
theorem c6_error_suppression_witness :
    loopPhase "s1" none (some ⟨"boom", none⟩) [some (textEvt "s1" "hello")]
      = .error ⟨"boom", none⟩ :=
  c6_error_suppression.2.2.2.2.1 "s1" none [some (textEvt "s1" "hello")]
    ⟨"hello", [], ⟨0, 0, 0⟩, "end_turn"⟩ 1 ⟨"boom", none⟩ (by decide) rfl

/-- C7 counterexample: a call aborted mid-loop does not fail with an
Aborted-style error and is not all-or-nothing — it resolves successfully
with the partially accumulated text `"a"`, although the stream carried the
fuller text `"ab"` later. -/
theorem c7_mid_loop_abort_counterexample :
    (completeModel c7env).result = .ok ⟨"a", none, "end_turn", ⟨0, 0, 0⟩⟩
    ∧ lastTextUpdate "s1" c7env.events = some "ab" :=
  ⟨rfl, rfl⟩

/-- C7 (amended): when the loop observes the abort at one of its checks,
the call resolves successfully with the result accumulated so far (possibly
partial): neither a stream-iteration error nor a prompt rejection surfaces,
both being suppressed by the cancellation policy. -/
theorem c7_mid_loop_abort_amended :
    ∀ (env : CompleteEnv) (sid : String) (st : LoopState) (n : Nat),
      (env.hasAbortSignal && env.preAborted) = false →
      env.createRuntimeFails = none →
      env.sessionData = some sid →
      runLoop sid env.abortAt initState 0 env.events = .abortBroke st n →
      env.abortedAfterLoop = true →
      (completeModel env).result = .ok (finalize st) := by
  intro env sid st n h1 h2 h3 h4 h5
  have hlp : loopPhase sid env.abortAt env.streamEnd env.events = .ok st := by
    unfold loopPhase
    rw [h4]
  unfold completeModel
  rw [h1]
  simp only [Bool.false_eq_true, if_false]
  rw [h2, h3]
  show (match loopPhase sid env.abortAt env.streamEnd env.events with
        | .error e => Except.error e
        | .ok st₁ =>
          match handlePromptSettled env.abortedAfterLoop env.promptError with
          | some e => Except.error e
          | none => Except.ok (finalize st₁)) = Except.ok (finalize st)
  rw [hlp, h5]
  cases env.promptError <;> rfl

/-- C7 witness: the amended statement on the concrete aborted
environment. -/
theorem c7_mid_loop_abort_amended_witness :
    (completeModel c7env).result
      = .ok (finalize ⟨"a", [], ⟨0, 0, 0⟩, "end_turn"⟩) :=
  c7_mid_loop_abort_amended c7env "s1" ⟨"a", [], ⟨0, 0, 0⟩, "end_turn"⟩ 1
    rfl rfl rfl (by decide) rfl

/-- A conditional between two step outcomes preserves a property of their
carried states. -/
theorem state_toolCalls_ite {tcs : List ToolCall} (c : Prop) [Decidable c]
    (a b : StepOutcome) (ha : a.state.toolCalls = tcs) (hb : b.state.toolCalls = tcs) :
    ((if c then a else b).state).toolCalls = tcs := by
  by_cases h : c
  · rw [if_pos h]; exact ha
  · rw [if_neg h]; exact hb

/-- No branch of the loop body touches the tool-call accumulator. -/
theorem processEvent_toolCalls (sessionId : String) (st : LoopState)
    (ev : Option RemoteEvent) :
    ((processEvent sessionId st ev).state).toolCalls = st.toolCalls := by
  cases ev with
  | none => rfl
  | some e =>
    unfold processEvent
    by_cases hacc : acceptsEvent sessionId e = true
    · simp only [hacc, Bool.not_true, Bool.false_eq_true, if_false]
      by_cases h1 : e.type = "message.part.updated"
      · simp only [h1, beq_self_eq_true, if_true]
        cases hm : jsMember e.properties "part" with
        | none => rfl
        | some partOpt =>
          cases partOpt with
          | none => rfl
          | some part => exact state_toolCalls_ite _ _ _ rfl rfl
      · have h1' : (e.type == "message.part.updated") = false := by simpa using h1
        simp only [h1', Bool.false_eq_true, if_false]
        by_cases h2 : e.type = "message.updated"
        · simp only [h2, beq_self_eq_true, if_true]
          cases hm : jsMember e.properties "info" with
          | none => rfl
          | some infoOpt =>
            cases infoOpt with
            | none => rfl
            | some info => exact state_toolCalls_ite _ _ _ rfl rfl
        · have h2' : (e.type == "message.updated") = false := by simpa using h2
          simp only [h2', Bool.false_eq_true, if_false]
          by_cases h3 : (e.type == "session.idle" || e.type == "session.status") = true
          · simp only [h3, if_true]
            cases hm : jsMember e.properties "status" with
            | none => rfl
            | some statusOpt =>
              exact state_toolCalls_ite _ _ _ rfl (state_toolCalls_ite _ _ _ rfl rfl)
          · simp only [eq_false_of_ne_true h3, Bool.false_eq_true, if_false]
            rfl
    · simp only [eq_false_of_ne_true hacc, Bool.not_false, if_true]
      rfl

/-- However the loop exits, its exit state carries the tool calls it
started with: nothing is ever appended. -/
theorem runLoop_state_toolCalls (sessionId : String) (abortAt : Option Nat) :
    ∀ (evs : List (Option RemoteEvent)) (st : LoopState) (i : Nat),
      ((runLoop sessionId abortAt st i evs).state).toolCalls = st.toolCalls := by
  intro evs
  induction evs with
  | nil => intro st i; rfl
  | cons e rest ih =>
    intro st i
    simp only [runLoop]
    by_cases ha : abortedBy abortAt i = true
    · rw [if_pos ha]; rfl
    · rw [if_neg ha]
      have hstep := processEvent_toolCalls sessionId st e
      cases hp : processEvent sessionId st e with
      | cont st₁ =>
        rw [hp] at hstep
        calc ((runLoop sessionId abortAt st₁ (i + 1) rest).state).toolCalls
            = st₁.toolCalls := ih st₁ (i + 1)
          _ = st.toolCalls := hstep
      | brk st₁ => rw [hp] at hstep; exact hstep
      | tyErr st₁ => rw [hp] at hstep; exact hstep

/-- A loop phase that succeeds hands back a state whose tool-call list is
still empty. -/
theorem loopPhase_ok_toolCalls (sessionId : String) (abortAt : Option Nat)
    (streamEnd : Option JsError) (events : List (Option RemoteEvent)) (st : LoopState)
    (h : loopPhase sessionId abortAt streamEnd events = .ok st) :
    st.toolCalls = [] := by
  have hrun := runLoop_state_toolCalls sessionId abortAt events initState 0
  unfold loopPhase at h
  cases hr : runLoop sessionId abortAt initState 0 events with
  | broke st₁ idx =>
    rw [hr] at h hrun
    cases h
    exact hrun
  | abortBroke st₁ idx =>
    rw [hr] at h hrun
    cases h
    exact hrun
  | threw st₁ idx =>
    rw [hr] at h hrun
    have h₂ : (match handleLoopError (abortedBy abortAt idx) typeErrorVal with
               | some e => Except.error e
               | none => Except.ok st₁) = Except.ok st := h
    cases hab : abortedBy abortAt idx with
    | false => rw [hab] at h₂; cases h₂
    | true => rw [hab] at h₂; cases h₂; exact hrun
  | exhausted st₁ idx =>
    rw [hr] at h hrun
    cases streamEnd with
    | none =>
      have h₂ : (Except.ok st₁ : Except JsError LoopState) = Except.ok st := h
      cases h₂
      exact hrun
    | some e =>
      have h₂ : (match handleLoopError (abortedBy abortAt idx) e with
                 | some e₁ => Except.error e₁
                 | none => Except.ok st₁) = Except.ok st := h
      cases hab : abortedBy abortAt idx with
      | false => rw [hab] at h₂; cases h₂
      | true => rw [hab] at h₂; cases h₂; exact hrun

/-- A result without tool calls makes the streaming adapter emit no
tool-call event. -/
theorem streamComplete_no_toolCalls (r : CompleteResult) (h : r.toolCalls = none) :
    (streamComplete r).filter isToolEvent = [] := by
  unfold streamComplete
  rw [h]
  rw [List.filter_append, List.filter_append]
  have h1 : List.filter isToolEvent
      (if (r.text != "") = true then [StreamEvent.text r.text] else []) = [] := by
    by_cases ht : (r.text != "") = true
    · rw [if_pos ht]; rfl
    · rw [if_neg ht]; rfl
  rw [h1]
  rfl

/-- C10: the tool-call accumulator stays empty through every iteration of
the event loop (no event type appends to it), hence every successful call
returns a result with `toolCalls` absent, and the streaming adapter never
emits a tool-call start, delta or end event for it. -/
theorem c10_no_tool_calls :
    (∀ (sessionId : String) (st : LoopState) (ev : Option RemoteEvent),
      ((processEvent sessionId st ev).state).toolCalls = st.toolCalls)
    ∧ (∀ (env : CompleteEnv) (r : CompleteResult),
        (completeModel env).result = .ok r →
        r.toolCalls = none ∧ (streamComplete r).filter isToolEvent = []) := by
  refine ⟨processEvent_toolCalls, ?_⟩
  intro env r h
  unfold completeModel at h
  cases hc : env.hasAbortSignal && env.preAborted with
  | true => rw [hc] at h; simp at h
  | false =>
    rw [hc] at h
    simp only [Bool.false_eq_true, if_false] at h
    cases hcr : env.createRuntimeFails with
    | some e => rw [hcr] at h; simp at h
    | none =>
      rw [hcr] at h
      cases hsd : env.sessionData with
      | none => rw [hsd] at h; simp at h
      | some sid =>
        rw [hsd] at h
        have h₂ : (match loopPhase sid env.abortAt env.streamEnd env.events with
                   | Except.error e => Except.error e
                   | Except.ok st =>
                     match handlePromptSettled env.abortedAfterLoop env.promptError with
                     | some e => Except.error e
                     | none => Except.ok (finalize st)) = Except.ok r := h
        cases hlp : loopPhase sid env.abortAt env.streamEnd env.events with
        | error e => rw [hlp] at h₂; cases h₂
        | ok st =>
          rw [hlp] at h₂
          have h₃ : (match handlePromptSettled env.abortedAfterLoop env.promptError with
                     | some e => Except.error e
                     | none => Except.ok (finalize st)) = Except.ok r := h₂
          cases hps : handlePromptSettled env.abortedAfterLoop env.promptError with
          | some e => rw [hps] at h₃; cases h₃
          | none =>
            rw [hps] at h₃
            have hfin : finalize st = r := by
              simpa using h₃
            have htc : st.toolCalls = [] :=
              loopPhase_ok_toolCalls sid env.abortAt env.streamEnd env.events st hlp
            have hnone : r.toolCalls = none := by
              rw [← hfin]
              unfold finalize
              rw [htc]
              rfl
            exact ⟨hnone, streamComplete_no_toolCalls r hnone⟩

/-- C10 witness: the successful demonstration call returns no tool calls
and streams no tool-call events. -/
theorem c10_no_tool_calls_witness :
    (⟨"hello", none, "end_turn", ⟨0, 0, 0⟩⟩ : CompleteResult).toolCalls = none
    ∧ (streamComplete ⟨"hello", none, "end_turn", ⟨0, 0, 0⟩⟩).filter isToolEvent = [] :=
  c10_no_tool_calls.2 demoEnv ⟨"hello", none, "end_turn", ⟨0, 0, 0⟩⟩ rfl

/-- C8: the submitted content parts are a single text part holding the
literal prompt when the prompt is non-empty; otherwise a single text part
holding the newline-join of the user-role message contents (non-string
content contributing the empty string), omitted when that join is empty
(an empty prompt falls through to the message path); nothing when both are
absent; with one `[System]: `-tagged part appended last when a non-empty
system prompt is provided. -/
theorem c8_prompt_parts :
    (∀ (p : String) (ms : Option (List Message)) (sp : Option String), p ≠ "" →
      buildParts (some p) ms sp = ⟨p⟩ :: sysPart sp)
    ∧ (∀ (ms : List Message) (sp : Option String),
        buildParts none (some ms) sp
          = (if joinedUserText ms = "" then []
             else [⟨joinedUserText ms⟩]) ++ sysPart sp)
    ∧ (∀ (ms : Option (List Message)) (sp : Option String),
        buildParts (some "") ms sp = buildParts none ms sp)
    ∧ (∀ sp : Option String, buildParts none none sp = sysPart sp)
    ∧ (∀ s : String, s ≠ "" → sysPart (some s) = [⟨"[System]: " ++ s⟩])
    ∧ (∀ m : Message, (∀ s, m.content ≠ .str s) → contentAsString m = "")
    ∧ (∀ ms : List Message,
        joinedUserText ms
          = String.intercalate "\n"
              ((ms.filter (fun m => m.role == "user")).map contentAsString)) := by
  refine ⟨?_, ?_, fun ms sp => rfl, fun sp => rfl, ?_, ?_, fun ms => rfl⟩
  · intro p ms sp hp
    have hb : (p != "") = true := by simpa using hp
    show (if (p != "") = true then [(⟨p⟩ : PromptPart)] else messagesBase ms)
        ++ sysPart sp = ⟨p⟩ :: sysPart sp
    rw [if_pos hb]
    rfl
  · intro ms sp
    show (if (joinedUserText ms != "") = true
          then [(⟨joinedUserText ms⟩ : PromptPart)] else []) ++ sysPart sp
        = (if joinedUserText ms = "" then []
           else [(⟨joinedUserText ms⟩ : PromptPart)]) ++ sysPart sp
    by_cases hj : joinedUserText ms = ""
    · have hb : (joinedUserText ms != "") = false := by simpa using hj
      rw [hb, if_neg Bool.false_ne_true, if_pos hj]
    · have hb : (joinedUserText ms != "") = true := by simpa using hj
      rw [if_pos hb, if_neg hj]
  · intro s hs
    have hb : (s != "") = true := by simpa using hs
    show (if (s != "") = true then [(⟨"[System]: " ++ s⟩ : PromptPart)] else [])
        = [⟨"[System]: " ++ s⟩]
    rw [if_pos hb]
  · intro m hm
    unfold contentAsString
    cases hc : m.content with
    | str s => exact absurd hc (hm s)
    | parts l => rfl

/-- C8 witness: a concrete non-empty prompt with no messages and no system
prompt yields exactly one literal text part. -/
theorem c8_prompt_parts_witness :
    buildParts (some "hi") none none = [⟨"hi"⟩] := by
  rw [c8_prompt_parts.1 "hi" none none (by decide)]
  rfl

/-- The flattened triples of the tool calls, in fold form. -/
theorem flatten_map_toolCallTriple (l : List ToolCall) :
    ((l.map toolCallTriple).flatten)
      = l.foldr (fun tc rest =>
          StreamEvent.toolCallStart tc.id tc.name ::
          StreamEvent.toolCallDelta tc.id tc.arguments ::
          StreamEvent.toolCallEnd tc.id tc.name tc.arguments :: rest) [] := by
  induction l with
  | nil => rfl
  | cons tc rest ih => simp [toolCallTriple, ih]

/-- No element of the tool-call triples is the done event. -/
theorem filter_isDone_triples (l : List ToolCall) :
    ((l.map toolCallTriple).flatten).filter isDone = [] := by
  induction l with
  | nil => rfl
  | cons tc rest ih => simp [toolCallTriple, isDone, ih]

/-- C9: for every completion result the streaming adapter yields exactly
the sequence the specification describes — one text event if and only if
the text is non-empty, then a start/delta/end triple per accumulated tool
call in list order, then one terminal done event carrying the whole
result; the done event is the last element and occurs exactly once, so
nothing is yielded after it, and the sequence is a finite list by
construction. -/
theorem c9_stream_shape :
    ∀ r : CompleteResult,
      streamComplete r = specStreamEvents r
      ∧ (streamComplete r).getLast? = some (.done r)
      ∧ (streamComplete r).filter isDone = [.done r] := by
  intro r
  refine ⟨?_, ?_, ?_⟩
  · unfold streamComplete specStreamEvents
    rw [flatten_map_toolCallTriple]
    by_cases ht : r.text = ""
    · have hb : (r.text != "") = false := by simpa using ht
      rw [if_neg (by simp [hb]), if_pos ht]
    · have hb : (r.text != "") = true := by simpa using ht
      rw [if_pos hb, if_neg ht]
  · unfold streamComplete
    exact List.getLast?_concat _
  · unfold streamComplete
    rw [List.filter_append, List.filter_append, filter_isDone_triples]
    have hdone : List.filter isDone [StreamEvent.done r] = [StreamEvent.done r] := by
      simp [isDone]
    have htext : List.filter isDone
        (if (r.text != "") = true then [StreamEvent.text r.text] else []) = [] := by
      by_cases ht : (r.text != "") = true
      · rw [if_pos ht]; rfl
      · rw [if_neg ht]; rfl
    rw [hdone, htext]
    rfl

end OpencodeSdk
